import Mathlib

/-!
Shallow embedding of `src/lib.rs` of the `krh_args_parser` crate.

The Rust crate exposes `parse(args) -> Result<P, Cow<str>>` for a
handler trait `P : ArgumentParser` with callbacks `long`, `short`,
`argument`, `subcommand`.  Each callback receives a value-supplier
closure (`&mut dyn FnMut() -> Result<String, Cow<str>>`) it may invoke
any number of times; the supplier is backed by the token cursor.

The embedding below mirrors that code:
  * `Err` is the closed set of dispatcher-generated errors (each
    constructor corresponds to one `format!`/literal message in the
    source); `Err.handler` wraps an error string raised by a handler
    callback itself.
  * A handler callback is an interaction tree `HProg`: it either
    finishes (`ret`) or invokes its supplier (`ask`) and continues on
    the supplier's answer — exactly the `FnMut` protocol.
  * `SupplierKind` names the four supplier closures the source builds;
    `SupplierKind.run` is their semantics over the stream state.
  * `parseLoop`/`clusterLoop` are the outer `while let` loop and the
    short-cluster character loop; they also record an `Event` trace of
    the handler calls made, with the supplier kind passed at each call.
  * `parse` is the top-level entry point (the `P::default()` initial
    state is the handler's `init` field).
-/

/-- Dispatcher-generated errors, one constructor per error message in
the source; `handler` wraps a message raised by a handler callback. -/
inductive Err : Type where
  /-- Rust: "No arguments given". -/
  | emptyInput : Err
  /-- Rust: "Flag '{flag}' was given argument '{val}' without using it". -/
  | unusedInlineValue (flag val : String) : Err
  /-- Rust: "Expected value but no arguments were left" (long flag). -/
  | missingValue : Err
  /-- Rust: "Expected value for {c} but no arguments were left" (short flag). -/
  | missingValueFor (c : Char) : Err
  /-- Rust: "Expected value, got flag {f}". -/
  | expectedValueGotFlag (f : String) : Err
  /-- Rust: "Could not get argument for {c} while in short chain". -/
  | cannotTakeValueMidCluster (c : Char) : Err
  /-- Rust: "No argument next" (positional supplier). -/
  | noArgumentNext : Err
  /-- An error message returned by a handler callback (`Cow<str>`). -/
  | handler (msg : String) : Err
deriving Repr, DecidableEq

deriving instance DecidableEq for Except

/-- Stream state seen by a supplier: the unconsumed tokens and the
per-dispatch `taken` flag used by inline-value suppliers. -/
structure PState : Type where
  args : List String
  taken : Bool
deriving Repr, DecidableEq

/-- The four supplier closures the source builds: an inline `=value`
supplier, the always-failing mid-cluster supplier, the peeking
external-token supplier (`nextTok`; the `Option Char` distinguishes the
long-flag from the short-flag error message), and the positional
supplier `args.next().ok_or("No argument next")`. -/
inductive SupplierKind : Type where
  | inline (v : String) : SupplierKind
  | midCluster (c : Char) : SupplierKind
  | nextTok (c : Option Char) : SupplierKind
  | positional : SupplierKind
deriving Repr, DecidableEq

/-- One handler call made by the dispatcher, with the supplier kind it
was handed; `callSubcommand` records the token list handed over. -/
inductive Event : Type where
  | callLong (name : String) (sk : SupplierKind) : Event
  | callShort (c : Char) (isLast : Bool) (sk : SupplierKind) : Event
  | callArgument (arg : String) (sk : SupplierKind) : Event
  | callSubcommand (name : String) (rest : List String) : Event
deriving Repr, DecidableEq

/-- Rust `arg.strip_prefix("--")`. -/
def dropDashDash (s : String) : Option String :=
  match s.data with
  | '-' :: '-' :: r => some (String.mk r)
  | _ => none

/-- Rust `arg.strip_prefix('-')`. -/
def dropDash (s : String) : Option String :=
  match s.data with
  | '-' :: r => some (String.mk r)
  | _ => none

/-- Rust `f.starts_with('-')`. -/
def startsDash (s : String) : Bool :=
  match s.data with
  | '-' :: _ => true
  | _ => false

/-- Rust `str::split_once` on a character list: split at the first
occurrence of `sep`, or `none` when `sep` does not occur. -/
def splitOnceList (sep : Char) : List Char → Option (List Char × List Char)
  | [] => none
  | c :: rest =>
    if c = sep then some ([], rest)
    else
      match splitOnceList sep rest with
      | some (l, r) => some (c :: l, r)
      | none => none

/-- Rust `s.split_once(sep)` on strings. -/
def splitOnceStr (s : String) (sep : Char) : Option (String × String) :=
  match splitOnceList sep s.data with
  | some (l, r) => some (String.mk l, String.mk r)
  | none => none

/-- A handler call's interaction with its value supplier: it either
finishes with a result, or invokes the supplier once more (`ask`) and
continues on the supplier's answer.  This is the shape of a Rust
callback body that may call `next()` any number of times. -/
inductive HProg (α : Type) : Type where
  | ret (a : α) : HProg α
  | ask (k : Except Err String → HProg α) : HProg α

/-- The handler trait `ArgumentParser`, over handler state `σ`:
`init` is `P::default()`; each callback returns either an updated state
or its own error message.  `argument`'s `Bool` is the "retry as a
subcommand" flag; `subcommand` receives the remaining tokens and never
gets a supplier. -/
structure Handler (σ : Type) : Type where
  init : σ
  long : σ → String → HProg (Except String σ)
  short : σ → Char → Bool → HProg (Except String σ)
  argument : σ → String → HProg (Except String (σ × Bool))
  subcommand : σ → String → List String → Except String σ

/-- Semantics of one supplier invocation over the stream state.  The
`inline` supplier returns its stored value and sets `taken`; the
mid-cluster supplier always fails; `nextTok` peeks the next token,
fails (without consuming) when it is absent or starts with `-`, else
consumes and returns it; `positional` consumes unconditionally. -/
def SupplierKind.run : SupplierKind → PState → Except Err String × PState
  | .inline v, st => (.ok v, ⟨st.args, true⟩)
  | .midCluster c, st => (.error (.cannotTakeValueMidCluster c), st)
  | .nextTok c, st =>
    match st.args with
    | [] =>
      (.error (match c with | none => .missingValue | some c0 => .missingValueFor c0), st)
    | f :: rest =>
      if startsDash f then (.error (.expectedValueGotFlag f), st)
      else (.ok f, ⟨rest, st.taken⟩)
  | .positional, st =>
    match st.args with
    | [] => (.error .noArgumentNext, st)
    | f :: rest => (.ok f, ⟨rest, st.taken⟩)

/-- Run one handler call against its supplier, threading the stream
state through every supplier invocation. -/
def runProg {α : Type} : HProg α → SupplierKind → PState → α × PState
  | .ret a, _, st => (a, st)
  | .ask k, sk, st =>
    match sk.run st with
    | (r, st') => runProg (k r) sk st'

/-- The short-cluster loop of `parse` (`while let Some(c) = peekable.next()`).
`s` is the whole token with the leading `-` removed (the source splits
`s` itself at the first `=`, and uses `s` in the unused-inline-value
message); `cs` is the not-yet-dispatched character suffix.  Returns the
result, the handler-call trace, and the remaining stream. -/
def clusterLoop {σ : Type} (H : Handler σ) (s : String) :
    σ → List Char → List String → Except Err σ × List Event × List String
  | st, [], args => (.ok st, [], args)
  | st, c :: cs, args =>
    match cs with
    | p :: _ =>
      if p = '=' then
        -- the source's `s.split_once('=').unwrap()`; `=` occurs in `s`
        -- here, so the `none` default is unreachable
        let v : String :=
          match splitOnceStr s '=' with
          | some (_, n) => n
          | none => ""
        match runProg (H.short st c true) (.inline v) ⟨args, false⟩ with
        | (r, ps) =>
          let ev := Event.callShort c true (.inline v)
          match r with
          | .error m => (.error (.handler m), [ev], ps.args)
          | .ok st' =>
            if ps.taken then (.ok st', [ev], ps.args)
            else (.error (.unusedInlineValue s v), [ev], ps.args)
      else
        match runProg (H.short st c false) (.midCluster c) ⟨args, false⟩ with
        | (r, ps) =>
          let ev := Event.callShort c false (.midCluster c)
          match r with
          | .error m => (.error (.handler m), [ev], ps.args)
          | .ok st' =>
            match clusterLoop H s st' cs ps.args with
            | (res, tr, args') => (res, ev :: tr, args')
    | [] =>
      match runProg (H.short st c true) (.nextTok (some c)) ⟨args, false⟩ with
      | (r, ps) =>
        let ev := Event.callShort c true (.nextTok (some c))
        (match r with
         | .error m => .error (.handler m)
         | .ok st' => .ok st', [ev], ps.args)

/-- The main `while let Some(arg) = args.next()` loop.  `fuel` bounds
the number of iterations; `parse` passes the token count, which always
suffices because every iteration consumes at least the token it
classifies. -/
def parseLoop {σ : Type} (H : Handler σ) : Nat → σ → List String → Except Err σ × List Event
  | 0, st, _ => (.ok st, [])
  | _ + 1, st, [] => (.ok st, [])
  | fuel + 1, st, arg :: rest =>
    match dropDashDash arg with
    | some s =>
      match splitOnceStr s '=' with
      | some (nm, v) =>
        match runProg (H.long st nm) (.inline v) ⟨rest, false⟩ with
        | (r, ps) =>
          let ev := Event.callLong nm (.inline v)
          match r with
          | .error m => (.error (.handler m), [ev])
          | .ok st' =>
            if ps.taken then
              match parseLoop H fuel st' ps.args with
              | (res, tr) => (res, ev :: tr)
            else (.error (.unusedInlineValue nm v), [ev])
      | none =>
        match runProg (H.long st s) (.nextTok none) ⟨rest, false⟩ with
        | (r, ps) =>
          let ev := Event.callLong s (.nextTok none)
          match r with
          | .error m => (.error (.handler m), [ev])
          | .ok st' =>
            match parseLoop H fuel st' ps.args with
            | (res, tr) => (res, ev :: tr)
    | none =>
      match dropDash arg with
      | some s =>
        match clusterLoop H s st s.data rest with
        | (r, tr, args') =>
          match r with
          | .error e => (.error e, tr)
          | .ok st' =>
            match parseLoop H fuel st' args' with
            | (res, tr') => (res, tr ++ tr')
      | none =>
        match runProg (H.argument st arg) .positional ⟨rest, false⟩ with
        | (r, ps) =>
          let ev := Event.callArgument arg .positional
          match r with
          | .error m => (.error (.handler m), [ev])
          | .ok (st', isSub) =>
            if isSub then
              let ev2 := Event.callSubcommand arg ps.args
              match H.subcommand st' arg ps.args with
              | .error m => (.error (.handler m), [ev, ev2])
              | .ok st'' => (.ok st'', [ev, ev2])
            else
              match parseLoop H fuel st' ps.args with
              | (res, tr) => (res, ev :: tr)

/-- The `parse` entry point: empty input fails with `EmptyInput` before
any handler call; otherwise the main loop runs from `H.init`. -/
def parse {σ : Type} (H : Handler σ) (args : List String) : Except Err σ × List Event :=
  match args with
  | [] => (.error .emptyInput, [])
  | _ :: _ => parseLoop H args.length H.init args

/-- The three dispatch classes of the spec's data model. -/
inductive Dispatch : Type where
  | longFlag : Dispatch
  | shortCluster : Dispatch
  | positional : Dispatch
deriving Repr, DecidableEq

/-- The dispatch decision for a single token, read off the branch
structure of the source (`strip_prefix("--")`, then `strip_prefix('-')`,
then the positional branch). -/
def classify (arg : String) : Dispatch :=
  match dropDashDash arg with
  | some _ => .longFlag
  | none =>
    match dropDash arg with
    | some _ => .shortCluster
    | none => .positional

/-- The tokens for which `argument` was called, in call order. -/
def argTokens : List Event → List String
  | [] => []
  | .callArgument t _ :: tr => t :: argTokens tr
  | _ :: tr => argTokens tr

/-- Whether the trace contains any `long` or `short` call. -/
def hasFlagCall : List Event → Bool
  | [] => false
  | .callLong _ _ :: _ => true
  | .callShort _ _ _ :: _ => true
  | _ :: tr => hasFlagCall tr

/-- Probe-handler state: the supplier answers observed, in order. -/
abbrev RecSt : Type := List (Except Err String)

/-- A probe handler whose `long`, `short` and `argument` callbacks each
invoke their supplier exactly once, record the answer, and succeed;
`argument` answers `false` (no subcommand). -/
def recAll : Handler RecSt :=
  { init := []
    long := fun st _ => .ask fun r => .ret (.ok (st ++ [r]))
    short := fun st _ _ => .ask fun r => .ret (.ok (st ++ [r]))
    argument := fun st _ => .ask fun r => .ret (.ok (st ++ [r], false))
    subcommand := fun st _ _ => .ok st }

/-- A probe handler that never invokes any supplier: `argument` records
its token and answers `false`; flag callbacks succeed silently. -/
def recPos : Handler (List String) :=
  { init := []
    long := fun st _ => .ret (.ok st)
    short := fun st _ _ => .ret (.ok st)
    argument := fun st t => .ret (.ok (st ++ [t], false))
    subcommand := fun st _ _ => .ok st }

/-- A probe handler whose `argument` immediately requests subcommand
dispatch; `subcommand` records its name and its argument list. -/
def subProbe : Handler (Option (String × List String)) :=
  { init := none
    long := fun st _ => .ret (.ok st)
    short := fun st _ _ => .ret (.ok st)
    argument := fun st _ => .ret (.ok (st, true))
    subcommand := fun _ nm rest => .ok (some (nm, rest)) }

/-! ### Helper lemmas -/

theorem mk_data (s : String) : String.mk s.data = s := by
  cases s
  rfl

theorem dropDashDash_of_dropDash_none {s : String} (h : dropDash s = none) :
    dropDashDash s = none := by
  unfold dropDash at h
  unfold dropDashDash
  split
  · next r heq => rw [heq] at h; simp at h
  · rfl

theorem splitOnceList_append {sep : Char} {l : List Char} (r : List Char)
    (h : sep ∉ l) : splitOnceList sep (l ++ sep :: r) = some (l, r) := by
  induction l with
  | nil => simp [splitOnceList]
  | cons c l ih =>
    have hc : c ≠ sep := fun hh => h (by simp [hh])
    have hl : sep ∉ l := fun hh => h (by simp [hh])
    simp [splitOnceList, hc, ih hl]

theorem splitOnceList_none {sep : Char} {l : List Char} (h : sep ∉ l) :
    splitOnceList sep l = none := by
  induction l with
  | nil => rfl
  | cons c l ih =>
    have hc : c ≠ sep := fun hh => h (by simp [hh])
    have hl : sep ∉ l := fun hh => h (by simp [hh])
    simp [splitOnceList, hc, ih hl]

/-- Once `taken` is set, an inline supplier leaves the stream state
fixed at `⟨args, true⟩`, whatever the handler still does. -/
theorem runProg_inline_state_true {α : Type} (v : String) (p : HProg α)
    (args : List String) :
    (runProg p (.inline v) ⟨args, true⟩).2 = ⟨args, true⟩ := by
  induction p with
  | ret a => rfl
  | ask k ih => exact ih (.ok v)

/-- A handler call that invokes its inline supplier at least once ends
with `taken = true` and the stream untouched. -/
theorem runProg_inline_ask {α : Type} (v : String)
    (k : Except Err String → HProg α) (args : List String) :
    (runProg (HProg.ask k) (.inline v) ⟨args, false⟩).2 = ⟨args, true⟩ := by
  show (runProg (k (.ok v)) (.inline v) ⟨args, true⟩).2 = ⟨args, true⟩
  exact runProg_inline_state_true v _ args

/-- The external-token supplier consumes a non-flag next token. -/
theorem nextTok_run_cons_false (c : Option Char) (f : String) (fs : List String)
    (t : Bool) (hf : startsDash f = false) :
    (SupplierKind.nextTok c).run ⟨f :: fs, t⟩ = (.ok f, ⟨fs, t⟩) := by
  unfold SupplierKind.run
  dsimp only []
  rw [hf]
  rfl

/-! ### Step equations for the loops, one per dispatch branch -/

theorem parseLoop_step_long_inline {σ : Type} (H : Handler σ) (fuel : Nat) (st : σ)
    (arg : String) (rest : List String) (s nm v : String)
    (h : dropDashDash arg = some s) (hsp : splitOnceStr s '=' = some (nm, v)) :
    parseLoop H (fuel + 1) st (arg :: rest) =
      match runProg (H.long st nm) (.inline v) ⟨rest, false⟩ with
      | (r, ps) =>
        let ev := Event.callLong nm (.inline v)
        match r with
        | .error m => (.error (.handler m), [ev])
        | .ok st' =>
          if ps.taken then
            match parseLoop H fuel st' ps.args with
            | (res, tr) => (res, ev :: tr)
          else (.error (.unusedInlineValue nm v), [ev]) := by
  simp only [parseLoop, h, hsp]

theorem parseLoop_step_long_plain {σ : Type} (H : Handler σ) (fuel : Nat) (st : σ)
    (arg : String) (rest : List String) (s : String)
    (h : dropDashDash arg = some s) (hsp : splitOnceStr s '=' = none) :
    parseLoop H (fuel + 1) st (arg :: rest) =
      match runProg (H.long st s) (.nextTok none) ⟨rest, false⟩ with
      | (r, ps) =>
        let ev := Event.callLong s (.nextTok none)
        match r with
        | .error m => (.error (.handler m), [ev])
        | .ok st' =>
          match parseLoop H fuel st' ps.args with
          | (res, tr) => (res, ev :: tr) := by
  simp only [parseLoop, h, hsp]

theorem parseLoop_step_cluster {σ : Type} (H : Handler σ) (fuel : Nat) (st : σ)
    (arg : String) (rest : List String) (s : String)
    (h1 : dropDashDash arg = none) (h2 : dropDash arg = some s) :
    parseLoop H (fuel + 1) st (arg :: rest) =
      match clusterLoop H s st s.data rest with
      | (r, tr, args') =>
        match r with
        | .error e => (.error e, tr)
        | .ok st' =>
          match parseLoop H fuel st' args' with
          | (res, tr') => (res, tr ++ tr') := by
  simp only [parseLoop, h1, h2]

theorem parseLoop_step_positional {σ : Type} (H : Handler σ) (fuel : Nat) (st : σ)
    (arg : String) (rest : List String)
    (h1 : dropDashDash arg = none) (h2 : dropDash arg = none) :
    parseLoop H (fuel + 1) st (arg :: rest) =
      match runProg (H.argument st arg) .positional ⟨rest, false⟩ with
      | (r, ps) =>
        let ev := Event.callArgument arg .positional
        match r with
        | .error m => (.error (.handler m), [ev])
        | .ok (st', isSub) =>
          if isSub then
            let ev2 := Event.callSubcommand arg ps.args
            match H.subcommand st' arg ps.args with
            | .error m => (.error (.handler m), [ev, ev2])
            | .ok st'' => (.ok st'', [ev, ev2])
          else
            match parseLoop H fuel st' ps.args with
            | (res, tr) => (res, ev :: tr) := by
  simp only [parseLoop, h1, h2]

theorem clusterLoop_step_inline {σ : Type} (H : Handler σ) (s : String) (st : σ)
    (c : Char) (cs : List Char) (args : List String) (v : String)
    (hc : cs.head? = some '=')
    (hsp : (splitOnceStr s '=').map Prod.snd = some v) :
    clusterLoop H s st (c :: cs) args =
      match runProg (H.short st c true) (.inline v) ⟨args, false⟩ with
      | (r, ps) =>
        let ev := Event.callShort c true (.inline v)
        match r with
        | .error m => (.error (.handler m), [ev], ps.args)
        | .ok st' =>
          if ps.taken then (.ok st', [ev], ps.args)
          else (.error (.unusedInlineValue s v), [ev], ps.args) := by
  rcases cs with _ | ⟨p, cs2⟩
  · simp at hc
  · have hp : p = '=' := by simpa using hc
    subst hp
    rcases hv : splitOnceStr s '=' with _ | ⟨l, r⟩
    · rw [hv] at hsp; simp at hsp
    · rw [hv] at hsp
      simp only [Option.map, Option.some.injEq] at hsp
      simp only [clusterLoop, hv, hsp]
      rw [if_pos trivial]

theorem clusterLoop_step_mid {σ : Type} (H : Handler σ) (s : String) (st : σ)
    (c p : Char) (cs : List Char) (args : List String)
    (hp : p ≠ '=') :
    clusterLoop H s st (c :: p :: cs) args =
      match runProg (H.short st c false) (.midCluster c) ⟨args, false⟩ with
      | (r, ps) =>
        let ev := Event.callShort c false (.midCluster c)
        match r with
        | .error m => (.error (.handler m), [ev], ps.args)
        | .ok st' =>
          match clusterLoop H s st' (p :: cs) ps.args with
          | (res, tr, args') => (res, ev :: tr, args') := by
  simp only [clusterLoop, hp, if_false]

theorem splitOnceList_isSome {sep : Char} {l : List Char} (h : sep ∈ l) :
    ∃ pr, splitOnceList sep l = some pr := by
  induction l with
  | nil => simp at h
  | cons c l ih =>
    by_cases hc : c = sep
    · subst hc
      exact ⟨([], l), by simp [splitOnceList]⟩
    · have hl : sep ∈ l := by
        rcases List.mem_cons.mp h with h1 | h1
        · exact absurd h1.symm hc
        · exact h1
      rcases ih hl with ⟨⟨a, b⟩, hab⟩
      exact ⟨(c :: a, b), by simp [splitOnceList, Ne.symm hc, hc, hab]⟩

theorem clusterLoop_step_last {σ : Type} (H : Handler σ) (s : String) (st : σ)
    (c : Char) (args : List String) :
    clusterLoop H s st [c] args =
      match runProg (H.short st c true) (.nextTok (some c)) ⟨args, false⟩ with
      | (r, ps) =>
        let ev := Event.callShort c true (.nextTok (some c))
        (match r with
         | .error m => .error (.handler m)
         | .ok st' => .ok st', [ev], ps.args) := by
  simp only [clusterLoop]

/-! ### C1 — dispatch classification of tokens -/

/-- C1 fails as stated: the claim classifies the bare token "-" as
Positional, with the `argument` handler invoked for it.  In the code,
"-" falls into the short-flag branch (`strip_prefix('-')` succeeds with
an empty remainder), yielding an empty cluster: `parse` on ["-"] makes
no handler call at all. -/
theorem C1_bare_dash_counterexample :
    classify "-" = Dispatch.shortCluster ∧
    (parse recPos ["-"]).2 = [] ∧
    argTokens (parse recPos ["-"]).2 ≠ ["-"] := by
  decide

/-- C1 as amended: a token beginning with "--" is dispatched as a long
flag (even the bare "--"); a token beginning with a single "-" followed
by at least one character is dispatched as a short cluster; the bare
token "-" also enters the short-cluster branch but, being an empty
cluster, produces no handler call at all and parsing proceeds with the
remaining tokens; every other token is Positional and the `argument`
handler is invoked for it. -/
theorem C1_dispatch_classes {σ : Type} (H : Handler σ) (arg : String) (rest : List String) :
    (∀ s, dropDashDash arg = some s →
      classify arg = Dispatch.longFlag ∧
      ∃ nm sk tr, (parse H (arg :: rest)).2 = Event.callLong nm sk :: tr) ∧
    (∀ s, dropDashDash arg = none → dropDash arg = some s → s ≠ "" →
      classify arg = Dispatch.shortCluster ∧
      ∃ c b sk tr, (parse H (arg :: rest)).2 = Event.callShort c b sk :: tr) ∧
    (arg = "-" →
      parse H (arg :: rest) =
        if rest.isEmpty then (Except.ok H.init, []) else parse H rest) ∧
    (dropDash arg = none →
      classify arg = Dispatch.positional ∧
      ∃ tr, (parse H (arg :: rest)).2 = Event.callArgument arg SupplierKind.positional :: tr) := by
  refine ⟨?_, ?_, ?_, ?_⟩
  · intro s h
    refine ⟨by simp [classify, h], ?_⟩
    have hp : parse H (arg :: rest) = parseLoop H (rest.length + 1) H.init (arg :: rest) := rfl
    rw [hp]
    rcases hsp : splitOnceStr s '=' with _ | ⟨nm, v⟩
    · rw [parseLoop_step_long_plain H rest.length H.init arg rest s h hsp]
      rcases hr : runProg (H.long H.init s) (.nextTok none) ⟨rest, false⟩ with ⟨r, ps⟩
      cases r with
      | error m => exact ⟨s, _, _, rfl⟩
      | ok st' =>
        dsimp only []
        rcases hpl : parseLoop H rest.length st' ps.args with ⟨res, tr⟩
        exact ⟨s, _, _, rfl⟩
    · rw [parseLoop_step_long_inline H rest.length H.init arg rest s nm v h hsp]
      rcases hr : runProg (H.long H.init nm) (.inline v) ⟨rest, false⟩ with ⟨r, ps⟩
      cases r with
      | error m => exact ⟨nm, _, _, rfl⟩
      | ok st' =>
        dsimp only []
        cases ht : ps.taken
        · exact ⟨nm, _, _, rfl⟩
        · rcases hpl : parseLoop H rest.length st' ps.args with ⟨res, tr⟩
          exact ⟨nm, _, _, rfl⟩
  · intro s h1 h2 hne
    refine ⟨by simp [classify, h1, h2], ?_⟩
    have hp : parse H (arg :: rest) = parseLoop H (rest.length + 1) H.init (arg :: rest) := rfl
    rw [hp, parseLoop_step_cluster H rest.length H.init arg rest s h1 h2]
    rcases hd : s.data with _ | ⟨c, cs⟩
    · have hs0 : s = "" := by rw [← mk_data s, hd]
      exact absurd hs0 hne
    · rcases cs with _ | ⟨p, cs2⟩
      · rw [clusterLoop_step_last H s H.init c rest]
        rcases hr : runProg (H.short H.init c true) (.nextTok (some c)) ⟨rest, false⟩ with ⟨r, ps⟩
        cases r with
        | error m => exact ⟨c, true, _, _, rfl⟩
        | ok st' =>
          dsimp only []
          rcases hpl : parseLoop H rest.length st' ps.args with ⟨res, tr'⟩
          exact ⟨c, true, _, _, rfl⟩
      · by_cases hpe : p = '='
        · subst hpe
          have hmem : '=' ∈ s.data := by rw [hd]; simp
          rcases splitOnceList_isSome hmem with ⟨⟨l0, r0⟩, hsp0⟩
          have hsp : (splitOnceStr s '=').map Prod.snd = some (String.mk r0) := by
            simp [splitOnceStr, hsp0]
          rw [clusterLoop_step_inline H s H.init c ('=' :: cs2) rest (String.mk r0) rfl hsp]
          rcases hr : runProg (H.short H.init c true) (.inline (String.mk r0)) ⟨rest, false⟩
            with ⟨r, ps⟩
          cases r with
          | error m => exact ⟨c, true, _, _, rfl⟩
          | ok st' =>
            dsimp only []
            cases ht : ps.taken
            · exact ⟨c, true, _, _, rfl⟩
            · rcases hpl : parseLoop H rest.length st' ps.args with ⟨res, tr'⟩
              exact ⟨c, true, _, _, rfl⟩
        · rw [clusterLoop_step_mid H s H.init c p cs2 rest hpe]
          rcases hr : runProg (H.short H.init c false) (.midCluster c) ⟨rest, false⟩ with ⟨r, ps⟩
          cases r with
          | error m => exact ⟨c, false, _, _, rfl⟩
          | ok st' =>
            dsimp only []
            rcases hcl : clusterLoop H s st' (p :: cs2) ps.args with ⟨res, tr, args'⟩
            cases res with
            | error e => exact ⟨c, false, _, _, rfl⟩
            | ok st'' =>
              dsimp only []
              rcases hpl : parseLoop H rest.length st'' args' with ⟨res', tr''⟩
              exact ⟨c, false, _, _, rfl⟩
  · intro h
    subst h
    have h1 : dropDashDash "-" = none := by decide
    have h2 : dropDash "-" = some "" := by decide
    cases rest with
    | nil =>
      rw [if_pos (by decide)]
      rfl
    | cons b bs =>
      rw [if_neg (by simp)]
      have hp : parse H ("-" :: b :: bs) =
          parseLoop H (bs.length + 1 + 1) H.init ("-" :: b :: bs) := rfl
      rw [hp, parseLoop_step_cluster H (bs.length + 1) H.init "-" (b :: bs) "" h1 h2]
      have hcl : clusterLoop H "" H.init "".data (b :: bs) = (.ok H.init, [], b :: bs) := rfl
      rw [hcl]
      show (match parseLoop H (bs.length + 1) H.init (b :: bs) with
            | (res, tr') => (res, ([] : List Event) ++ tr')) = parse H (b :: bs)
      rcases hpl : parseLoop H (bs.length + 1) H.init (b :: bs) with ⟨res, tr⟩
      have hp2 : parse H (b :: bs) = parseLoop H (bs.length + 1) H.init (b :: bs) := rfl
      rw [hp2, hpl]
      rfl
  · intro h2
    have h1 : dropDashDash arg = none := dropDashDash_of_dropDash_none h2
    refine ⟨by simp [classify, h1, h2], ?_⟩
    have hp : parse H (arg :: rest) = parseLoop H (rest.length + 1) H.init (arg :: rest) := rfl
    rw [hp, parseLoop_step_positional H rest.length H.init arg rest h1 h2]
    rcases hr : runProg (H.argument H.init arg) .positional ⟨rest, false⟩ with ⟨r, ps⟩
    cases r with
    | error m => exact ⟨_, rfl⟩
    | ok q =>
      rcases q with ⟨st', isSub⟩
      cases isSub
      · dsimp only []
        rcases hpl : parseLoop H rest.length st' ps.args with ⟨res, tr⟩
        exact ⟨_, rfl⟩
      · dsimp only []
        rcases hsub : H.subcommand st' arg ps.args with m | st''
        · exact ⟨_, rfl⟩
        · exact ⟨_, rfl⟩

/-- Witness for `C1_dispatch_classes` at concrete inputs. -/
theorem C1_dispatch_classes_witness :
    ∃ tr, (parse recPos ["pos"]).2 = Event.callArgument "pos" SupplierKind.positional :: tr :=
  ((C1_dispatch_classes recPos "pos" []).2.2.2 (by decide)).2

/-! ### C2 — the positional value supplier -/

/-- C2 fails as stated: for the positional token "a" followed by the
flag-looking token "-x", invoking the supplier during `argument` does
not fail with ExpectedValueGotFlag — the positional supplier is
`args.next().ok_or("No argument next")`, which consumes "-x" and
returns it. -/
theorem C2_counterexample :
    parse recAll ["a", "-x"] =
      (Except.ok [Except.ok "-x"], [Event.callArgument "a" SupplierKind.positional]) ∧
    (Except.ok "-x" : Except Err String) ≠ Except.error (Err.expectedValueGotFlag "-x") := by
  decide

/-- C2 as amended: the value supplier passed to `argument` does NOT
behave like the external-token supplier for flags.  When invoked it
fails with `NoArgumentNext` (a distinct error from the flag supplier's
`MissingValue`) if the stream is exhausted, and otherwise consumes and
returns the next token unconditionally — even when that token starts
with "-". -/
theorem C2_positional_supplier (t v : String) (rest : List String)
    (h : dropDash t = none) :
    parse recAll (t :: v :: rest) =
      (let c := parseLoop recAll (rest.length + 1) [Except.ok v] rest
       (c.1, Event.callArgument t SupplierKind.positional :: c.2)) ∧
    parse recAll [t] =
      (Except.ok [Except.error Err.noArgumentNext],
       [Event.callArgument t SupplierKind.positional]) := by
  have h1 : dropDashDash t = none := dropDashDash_of_dropDash_none h
  constructor
  · have hp : parse recAll (t :: v :: rest) =
        parseLoop recAll (rest.length + 1 + 1) recAll.init (t :: v :: rest) := rfl
    rw [hp, parseLoop_step_positional recAll (rest.length + 1) recAll.init t (v :: rest) h1 h]
    dsimp only [recAll, runProg, SupplierKind.run]
    rcases hpl : parseLoop recAll (rest.length + 1) [Except.ok v] rest with ⟨res, tr⟩
    rfl
  · have hp : parse recAll [t] = parseLoop recAll 1 recAll.init [t] := rfl
    rw [hp, parseLoop_step_positional recAll 0 recAll.init t [] h1 h]
    rfl

/-- Witness for `C2_positional_supplier` at concrete inputs. -/
theorem C2_positional_supplier_witness :
    parse recAll ["a"] =
      (Except.ok [Except.error Err.noArgumentNext],
       [Event.callArgument "a" SupplierKind.positional]) :=
  (C2_positional_supplier "a" "v" [] (by decide)).2

/-! ### C3 — the cluster "-ab=x" -/

/-- C3: on the token "-ab=x" the dispatcher calls
`short('a', is_last := false, …)` with the always-failing mid-cluster
supplier, then `short('b', is_last := true, …)` with the inline
supplier yielding "x", and dispatches nothing further from that token —
for every handler the trace is a prefix of those two calls, and for the
ask-once probe handler it is exactly them, with the supplier answering
`CannotTakeValueMidCluster 'a'` then `Ok "x"`. -/
theorem C3_cluster_inline_dispatch :
    (∀ (σ : Type) (H : Handler σ),
      (parse H ["-ab=x"]).2 <+:
        [Event.callShort 'a' false (SupplierKind.midCluster 'a'),
         Event.callShort 'b' true (SupplierKind.inline "x")]) ∧
    parse recAll ["-ab=x"] =
      (Except.ok [Except.error (Err.cannotTakeValueMidCluster 'a'), Except.ok "x"],
       [Event.callShort 'a' false (SupplierKind.midCluster 'a'),
        Event.callShort 'b' true (SupplierKind.inline "x")]) := by
  constructor
  · intro σ H
    have hp : parse H ["-ab=x"] = parseLoop H 1 H.init ["-ab=x"] := rfl
    have h1 : dropDashDash "-ab=x" = none := by decide
    have h2 : dropDash "-ab=x" = some "ab=x" := by decide
    have hd : "ab=x".data = ['a', 'b', '=', 'x'] := rfl
    rw [hp, parseLoop_step_cluster H 0 H.init "-ab=x" [] "ab=x" h1 h2, hd,
      clusterLoop_step_mid H "ab=x" H.init 'a' 'b' ['=', 'x'] [] (by decide)]
    rcases hr : runProg (H.short H.init 'a' false) (.midCluster 'a') ⟨[], false⟩ with ⟨r, ps⟩
    cases r with
    | error m => exact ⟨[Event.callShort 'b' true (SupplierKind.inline "x")], rfl⟩
    | ok st' =>
      dsimp only []
      rw [clusterLoop_step_inline H "ab=x" st' 'b' ['=', 'x'] ps.args "x" rfl (by decide)]
      rcases hr2 : runProg (H.short st' 'b' true) (.inline "x") ⟨ps.args, false⟩ with ⟨r2, ps2⟩
      cases r2 with
      | error m => exact ⟨[], rfl⟩
      | ok st2 =>
        dsimp only []
        cases ht : ps2.taken
        · exact ⟨[], rfl⟩
        · exact ⟨[], rfl⟩
  · decide

/-! ### C4 — the cluster "-abc" -/

/-- C4: on the token "-abc" the dispatcher calls `short('a', false, …)`,
`short('b', false, …)`, `short('c', true, …)` in exactly that order (for
every handler the trace is a prefix of those three calls, cut short only
by a handler failure); for the ask-once probe handler the supplier fails
with `CannotTakeValueMidCluster` during the 'a' and 'b' calls, while
during the 'c' call it follows the external-value rule: consume a
following non-flag token, fail `MissingValueFor 'c'` when the stream is
exhausted, and fail `ExpectedValueGotFlag` without consuming when the
next token starts with "-" (which is then classified normally). -/
theorem C4_cluster_order :
    (∀ (σ : Type) (H : Handler σ),
      (parse H ["-abc"]).2 <+:
        [Event.callShort 'a' false (SupplierKind.midCluster 'a'),
         Event.callShort 'b' false (SupplierKind.midCluster 'b'),
         Event.callShort 'c' true (SupplierKind.nextTok (some 'c'))]) ∧
    parse recAll ["-abc", "val"] =
      (Except.ok [Except.error (Err.cannotTakeValueMidCluster 'a'),
        Except.error (Err.cannotTakeValueMidCluster 'b'), Except.ok "val"],
       [Event.callShort 'a' false (SupplierKind.midCluster 'a'),
        Event.callShort 'b' false (SupplierKind.midCluster 'b'),
        Event.callShort 'c' true (SupplierKind.nextTok (some 'c'))]) ∧
    parse recAll ["-abc"] =
      (Except.ok [Except.error (Err.cannotTakeValueMidCluster 'a'),
        Except.error (Err.cannotTakeValueMidCluster 'b'),
        Except.error (Err.missingValueFor 'c')],
       [Event.callShort 'a' false (SupplierKind.midCluster 'a'),
        Event.callShort 'b' false (SupplierKind.midCluster 'b'),
        Event.callShort 'c' true (SupplierKind.nextTok (some 'c'))]) ∧
    parse recAll ["-abc", "-x"] =
      (Except.ok [Except.error (Err.cannotTakeValueMidCluster 'a'),
        Except.error (Err.cannotTakeValueMidCluster 'b'),
        Except.error (Err.expectedValueGotFlag "-x"),
        Except.error (Err.missingValueFor 'x')],
       [Event.callShort 'a' false (SupplierKind.midCluster 'a'),
        Event.callShort 'b' false (SupplierKind.midCluster 'b'),
        Event.callShort 'c' true (SupplierKind.nextTok (some 'c')),
        Event.callShort 'x' true (SupplierKind.nextTok (some 'x'))]) := by
  refine ⟨?_, by decide, by decide, by decide⟩
  intro σ H
  have hp : parse H ["-abc"] = parseLoop H 1 H.init ["-abc"] := rfl
  have h1 : dropDashDash "-abc" = none := by decide
  have h2 : dropDash "-abc" = some "abc" := by decide
  have hd : "abc".data = ['a', 'b', 'c'] := rfl
  rw [hp, parseLoop_step_cluster H 0 H.init "-abc" [] "abc" h1 h2, hd,
    clusterLoop_step_mid H "abc" H.init 'a' 'b' ['c'] [] (by decide)]
  rcases hr : runProg (H.short H.init 'a' false) (.midCluster 'a') ⟨[], false⟩ with ⟨r, ps⟩
  cases r with
  | error m =>
    exact ⟨[Event.callShort 'b' false (SupplierKind.midCluster 'b'),
      Event.callShort 'c' true (SupplierKind.nextTok (some 'c'))], rfl⟩
  | ok st' =>
    dsimp only []
    rw [clusterLoop_step_mid H "abc" st' 'b' 'c' [] ps.args (by decide)]
    rcases hr2 : runProg (H.short st' 'b' false) (.midCluster 'b') ⟨ps.args, false⟩ with ⟨r2, ps2⟩
    cases r2 with
    | error m => exact ⟨[Event.callShort 'c' true (SupplierKind.nextTok (some 'c'))], rfl⟩
    | ok st2 =>
      dsimp only []
      rw [clusterLoop_step_last H "abc" st2 'c' ps2.args]
      rcases hr3 : runProg (H.short st2 'c' true) (.nextTok (some 'c')) ⟨ps2.args, false⟩
        with ⟨r3, ps3⟩
      cases r3 with
      | error m => exact ⟨[], rfl⟩
      | ok st3 => exact ⟨[], rfl⟩

/-! ### C5 — inline values of long flags ("--name=value") -/

/-- Token builder "--name=value" for statements about inline values. -/
def mkLongEq (name value : String) : String :=
  String.mk ('-' :: '-' :: (name.data ++ '=' :: value.data))

/-- Token builder "--name" (no '='). -/
def mkLongPlain (name : String) : String :=
  String.mk ('-' :: '-' :: name.data)

/-- C5: on a token "--name=value" the dispatcher calls `long` with
"name" and the inline supplier for "value"; any invocation of that
supplier yields "value".  If the handler returns success without ever
invoking the supplier, the whole parse fails with `UnusedInlineValue`;
if it invokes the supplier at least once the parse does not fail that
way at this dispatch — it aborts with the handler's own error or
continues with the remaining tokens. -/
theorem C5_inline_value_usage {σ : Type} (H : Handler σ) (name value : String)
    (rest : List String) (hname : '=' ∉ name.data) :
    (∃ tr, (parse H (mkLongEq name value :: rest)).2
        = Event.callLong name (SupplierKind.inline value) :: tr) ∧
    (∀ q : PState, (SupplierKind.inline value).run q = (.ok value, ⟨q.args, true⟩)) ∧
    (∀ st', H.long H.init name = HProg.ret (Except.ok st') →
      parse H (mkLongEq name value :: rest)
        = (.error (.unusedInlineValue name value),
           [Event.callLong name (SupplierKind.inline value)])) ∧
    (∀ k, H.long H.init name = HProg.ask k →
      (match runProg (H.long H.init name) (.inline value) ⟨rest, false⟩ with
       | (.error m, _) =>
          parse H (mkLongEq name value :: rest)
            = (.error (.handler m), [Event.callLong name (SupplierKind.inline value)])
       | (.ok st', _) =>
          parse H (mkLongEq name value :: rest)
            = (let c := parseLoop H rest.length st' rest
               (c.1, Event.callLong name (SupplierKind.inline value) :: c.2)))) := by
  have hdd : dropDashDash (mkLongEq name value)
      = some (String.mk (name.data ++ '=' :: value.data)) := rfl
  have hsp : splitOnceStr (String.mk (name.data ++ '=' :: value.data)) '='
      = some (name, value) := by
    unfold splitOnceStr
    rw [show (String.mk (name.data ++ '=' :: value.data)).data
        = name.data ++ '=' :: value.data from rfl]
    rw [splitOnceList_append value.data hname]
  have hp : parse H (mkLongEq name value :: rest)
      = parseLoop H (rest.length + 1) H.init (mkLongEq name value :: rest) := rfl
  refine ⟨?_, fun q => rfl, ?_, ?_⟩
  · rw [hp, parseLoop_step_long_inline H rest.length H.init (mkLongEq name value) rest
      (String.mk (name.data ++ '=' :: value.data)) name value hdd hsp]
    rcases hr : runProg (H.long H.init name) (.inline value) ⟨rest, false⟩ with ⟨r, ps⟩
    cases r with
    | error m => exact ⟨_, rfl⟩
    | ok st' =>
      dsimp only []
      cases ht : ps.taken
      · exact ⟨_, rfl⟩
      · rcases hpl : parseLoop H rest.length st' ps.args with ⟨res, tr⟩
        exact ⟨_, rfl⟩
  · intro st' hlong
    rw [hp, parseLoop_step_long_inline H rest.length H.init (mkLongEq name value) rest
      (String.mk (name.data ++ '=' :: value.data)) name value hdd hsp, hlong]
    rfl
  · intro k hk
    rcases hrp : runProg (H.long H.init name) (.inline value) ⟨rest, false⟩ with ⟨r, ps⟩
    have hps : ps = ⟨rest, true⟩ := by
      have h2 := runProg_inline_ask value k rest
      rw [← hk, hrp] at h2
      exact h2
    subst hps
    cases r with
    | error m =>
      rw [hp, parseLoop_step_long_inline H rest.length H.init (mkLongEq name value) rest
        (String.mk (name.data ++ '=' :: value.data)) name value hdd hsp, hrp]
    | ok st' =>
      rw [hp, parseLoop_step_long_inline H rest.length H.init (mkLongEq name value) rest
        (String.mk (name.data ++ '=' :: value.data)) name value hdd hsp, hrp]
      dsimp only []
      rcases hpl : parseLoop H rest.length st' rest with ⟨res, tr⟩
      rfl

/-- Witness for `C5_inline_value_usage`: a handler that never invokes
the supplier makes the parse fail with `UnusedInlineValue`. -/
theorem C5_inline_value_usage_witness :
    parse recPos [mkLongEq "name" "value"]
      = (.error (.unusedInlineValue "name" "value"),
         [Event.callLong "name" (SupplierKind.inline "value")]) :=
  (C5_inline_value_usage recPos "name" "value" [] (by decide)).2.2.1 [] rfl

/-! ### C6 — the external-token supplier of "--name" -/

/-- C6: on a token "--name" (no '='), `long` receives the peeking
external-token supplier.  Invoked with the stream exhausted it fails
with `MissingValue`; invoked when the next token starts with "-" it
fails with `ExpectedValueGotFlag` without consuming; otherwise it
consumes and returns the next token, and — shown for the ask-once probe
handler — classification resumes after the consumed value. -/
theorem C6_long_external_supplier {σ : Type} (H : Handler σ) (name : String)
    (rest : List String) (hname : '=' ∉ name.data) :
    (∃ tr, (parse H (mkLongPlain name :: rest)).2
        = Event.callLong name (SupplierKind.nextTok none) :: tr) ∧
    ((SupplierKind.nextTok none).run ⟨[], false⟩ = (.error .missingValue, ⟨[], false⟩)) ∧
    (∀ (f : String) (fs : List String), startsDash f = true →
      (SupplierKind.nextTok none).run ⟨f :: fs, false⟩
        = (.error (.expectedValueGotFlag f), ⟨f :: fs, false⟩)) ∧
    (∀ (v : String) (vs : List String), startsDash v = false →
      (SupplierKind.nextTok none).run ⟨v :: vs, false⟩ = (.ok v, ⟨vs, false⟩)) ∧
    (∀ (v : String) (rest2 : List String), startsDash v = false →
      parse recAll (mkLongPlain name :: v :: rest2)
        = (let c := parseLoop recAll (rest2.length + 1) [Except.ok v] rest2
           (c.1, Event.callLong name (SupplierKind.nextTok none) :: c.2))) := by
  have h1 : dropDashDash (mkLongPlain name) = some name := by
    rw [show dropDashDash (mkLongPlain name) = some (String.mk name.data) from rfl, mk_data]
  have hspn : splitOnceStr name '=' = none := by
    unfold splitOnceStr
    rw [splitOnceList_none hname]
  refine ⟨?_, rfl, fun f fs hf => by simp [SupplierKind.run, hf],
    fun v vs hv => by simp [SupplierKind.run, hv], ?_⟩
  · have hp : parse H (mkLongPlain name :: rest)
        = parseLoop H (rest.length + 1) H.init (mkLongPlain name :: rest) := rfl
    rw [hp, parseLoop_step_long_plain H rest.length H.init (mkLongPlain name) rest
      name h1 hspn]
    rcases hr : runProg (H.long H.init name) (.nextTok none) ⟨rest, false⟩ with ⟨r, ps⟩
    cases r with
    | error m => exact ⟨_, rfl⟩
    | ok st' =>
      dsimp only []
      rcases hpl : parseLoop H rest.length st' ps.args with ⟨res, tr⟩
      exact ⟨_, rfl⟩
  · intro v rest2 hv
    have hp : parse recAll (mkLongPlain name :: v :: rest2)
        = parseLoop recAll (rest2.length + 1 + 1) recAll.init (mkLongPlain name :: v :: rest2) :=
      rfl
    have hrun : runProg (recAll.long recAll.init name) (SupplierKind.nextTok none)
        ⟨v :: rest2, false⟩ = (Except.ok [Except.ok v], ⟨rest2, false⟩) := by
      dsimp only [recAll]
      rw [runProg]
      rw [nextTok_run_cons_false none v rest2 false hv]
      rfl
    rw [hp, parseLoop_step_long_plain recAll (rest2.length + 1) recAll.init (mkLongPlain name)
      (v :: rest2) name h1 hspn, hrun]

/-- Witness for `C6_long_external_supplier`: "--o v" consumes "v". -/
theorem C6_long_external_supplier_witness :
    parse recAll [mkLongPlain "o", "v"]
      = (Except.ok [Except.ok "v"], [Event.callLong "o" (SupplierKind.nextTok none)]) := by
  have h := (C6_long_external_supplier recAll "o" [] (by decide)).2.2.2.2 "v" [] (by decide)
  rw [h]
  rfl

/-! ### C7 — subcommand handoff -/

/-- C7: when the `argument` handler answers `true` for a positional
token, the outer loop performs no further classification: `subcommand`
is called exactly once, with that token's text and exactly the
remaining unconsumed tokens, and the parse returns the handler state
provided `subcommand` itself does not fail. -/
theorem C7_subcommand_handoff {σ : Type} (H : Handler σ) (t : String)
    (rest : List String) (st' : σ) (ps : PState)
    (h2 : dropDash t = none)
    (hrun : runProg (H.argument H.init t) .positional ⟨rest, false⟩
      = (Except.ok (st', true), ps)) :
    parse H (t :: rest) =
      (match H.subcommand st' t ps.args with
       | .ok st'' => (Except.ok st'',
           [Event.callArgument t SupplierKind.positional, Event.callSubcommand t ps.args])
       | .error m => (Except.error (.handler m),
           [Event.callArgument t SupplierKind.positional, Event.callSubcommand t ps.args])) := by
  have h1 : dropDashDash t = none := dropDashDash_of_dropDash_none h2
  have hp : parse H (t :: rest) = parseLoop H (rest.length + 1) H.init (t :: rest) := rfl
  rw [hp, parseLoop_step_positional H rest.length H.init t rest h1 h2, hrun]
  dsimp only []
  rcases hsub : H.subcommand st' t ps.args with m | st''
  · rfl
  · rfl

/-- Witness for `C7_subcommand_handoff` on a concrete run. -/
theorem C7_subcommand_handoff_witness :
    parse subProbe ["run", "x", "-y"]
      = (Except.ok (some ("run", ["x", "-y"])),
         [Event.callArgument "run" SupplierKind.positional,
          Event.callSubcommand "run" ["x", "-y"]]) := by
  have h := C7_subcommand_handoff subProbe "run" ["x", "-y"] none ⟨["x", "-y"], false⟩
    (by decide) rfl
  rw [h]
  rfl

/-! ### C8 — all-positional sequences -/

/-- C8 fails as stated: with a handler whose `argument` invokes its
supplier, the token "b" of ["a", "b"] — an all-positional sequence — is
consumed as a value for "a", and `argument` is called only once, not
once per token. -/
theorem C8_counterexample :
    dropDash "a" = none ∧ dropDash "b" = none ∧
    argTokens (parse recAll ["a", "b"]).2 ≠ ["a", "b"] := by
  decide

/-- C8 amended: for every non-empty token sequence in which no token
starts with "-", and every handler whose `argument` callback answers
`false` without invoking its supplier and without failing, `argument`
is called once per token in order, and neither `long` nor `short` is
ever called. -/
theorem C8_positional_only {σ : Type} (H : Handler σ) (f : σ → String → σ)
    (hA : ∀ st t, H.argument st t = HProg.ret (Except.ok (f st t, false)))
    (tokens : List String) (hne : tokens ≠ [])
    (hpos : ∀ t ∈ tokens, dropDash t = none) :
    argTokens (parse H tokens).2 = tokens ∧ hasFlagCall (parse H tokens).2 = false := by
  have main : ∀ (ts : List String) (fuel : Nat) (st : σ), ts.length ≤ fuel →
      (∀ t ∈ ts, dropDash t = none) →
      argTokens (parseLoop H fuel st ts).2 = ts ∧
      hasFlagCall (parseLoop H fuel st ts).2 = false := by
    intro ts
    induction ts with
    | nil =>
      intro fuel st _ _
      rcases fuel with _ | n
      · exact ⟨rfl, rfl⟩
      · exact ⟨rfl, rfl⟩
    | cons t ts ih =>
      intro fuel st hlen hp
      rcases fuel with _ | n
      · simp at hlen
      · have h2 : dropDash t = none := hp t (by simp)
        have h1 : dropDashDash t = none := dropDashDash_of_dropDash_none h2
        rw [parseLoop_step_positional H n st t ts h1 h2, hA st t]
        dsimp only [runProg]
        rcases hpl : parseLoop H n (f st t) ts with ⟨res, tr⟩
        have hts : ts.length ≤ n := by simpa using hlen
        have hptl : ∀ u ∈ ts, dropDash u = none := fun u hu => hp u (by simp [hu])
        rcases ih n (f st t) hts hptl with ⟨ih1, ih2⟩
        rw [hpl] at ih1 ih2
        exact ⟨by simpa [argTokens] using ih1, by simpa [hasFlagCall] using ih2⟩
  rcases tokens with _ | ⟨t, ts⟩
  · exact absurd rfl hne
  · exact main (t :: ts) (ts.length + 1) H.init (by simp) hpos

/-- Witness for `C8_positional_only` with the never-asking probe. -/
theorem C8_positional_only_witness :
    argTokens (parse recPos ["a", "b"]).2 = ["a", "b"] ∧
    hasFlagCall (parse recPos ["a", "b"]).2 = false :=
  C8_positional_only recPos (fun st t => st ++ [t]) (fun st t => rfl) ["a", "b"]
    (by decide) (by decide)

/-! ### C9 — empty input -/

theorem clusterLoop_no_emptyInput {σ : Type} (H : Handler σ) (s : String) :
    ∀ (cs : List Char) (st : σ) (args : List String),
    (clusterLoop H s st cs args).1 ≠ Except.error Err.emptyInput := by
  intro cs
  induction cs with
  | nil => intro st args; simp [clusterLoop]
  | cons c cs ih =>
    intro st args
    rcases cs with _ | ⟨p, cs2⟩
    · rw [clusterLoop_step_last H s st c args]
      rcases hr : runProg (H.short st c true) (.nextTok (some c)) ⟨args, false⟩ with ⟨r, ps⟩
      cases r with
      | error m => simp
      | ok st' => simp
    · by_cases hpe : p = '='
      · subst hpe
        simp only [clusterLoop]
        rw [if_pos trivial]
        rcases hsp0 : splitOnceStr s '=' with _ | ⟨l, r0⟩
        · dsimp only []
          rcases hr : runProg (H.short st c true) (.inline "") ⟨args, false⟩ with ⟨r, ps⟩
          cases r with
          | error m => simp
          | ok st' =>
            dsimp only []
            cases ht : ps.taken
            · simp
            · simp
        · dsimp only []
          rcases hr : runProg (H.short st c true) (.inline r0) ⟨args, false⟩ with ⟨r, ps⟩
          cases r with
          | error m => simp
          | ok st' =>
            dsimp only []
            cases ht : ps.taken
            · simp
            · simp
      · rw [clusterLoop_step_mid H s st c p cs2 args hpe]
        rcases hr : runProg (H.short st c false) (.midCluster c) ⟨args, false⟩ with ⟨r, ps⟩
        cases r with
        | error m => simp
        | ok st' =>
          dsimp only []
          rcases hcl : clusterLoop H s st' (p :: cs2) ps.args with ⟨res, tr, args'⟩
          cases res with
          | error e =>
            have h3 := ih st' ps.args
            rw [hcl] at h3
            simpa using h3
          | ok st'' => simp

theorem parseLoop_no_emptyInput {σ : Type} (H : Handler σ) :
    ∀ (fuel : Nat) (st : σ) (args : List String),
    (parseLoop H fuel st args).1 ≠ Except.error Err.emptyInput := by
  intro fuel
  induction fuel with
  | zero => intro st args; simp [parseLoop]
  | succ n ih =>
    intro st args
    rcases args with _ | ⟨arg, rest⟩
    · simp [parseLoop]
    · rcases hdd : dropDashDash arg with _ | s
      · rcases hdo : dropDash arg with _ | s
        · rw [parseLoop_step_positional H n st arg rest hdd hdo]
          rcases hr : runProg (H.argument st arg) .positional ⟨rest, false⟩ with ⟨r, ps⟩
          cases r with
          | error m => simp
          | ok q =>
            rcases q with ⟨st', isSub⟩
            cases isSub
            · dsimp only []
              rcases hpl : parseLoop H n st' ps.args with ⟨res, tr⟩
              have h3 := ih st' ps.args
              rw [hpl] at h3
              simpa using h3
            · dsimp only []
              rcases hsub : H.subcommand st' arg ps.args with m | st''
              · simp
              · simp
        · rw [parseLoop_step_cluster H n st arg rest s hdd hdo]
          rcases hcl : clusterLoop H s st s.data rest with ⟨res, tr, args'⟩
          cases res with
          | error e =>
            have h3 := clusterLoop_no_emptyInput H s s.data st rest
            rw [hcl] at h3
            simpa using h3
          | ok st' =>
            dsimp only []
            rcases hpl : parseLoop H n st' args' with ⟨res2, tr2⟩
            have h3 := ih st' args'
            rw [hpl] at h3
            simpa using h3
      · rcases hsp : splitOnceStr s '=' with _ | ⟨nm, v⟩
        · rw [parseLoop_step_long_plain H n st arg rest s hdd hsp]
          rcases hr : runProg (H.long st s) (.nextTok none) ⟨rest, false⟩ with ⟨r, ps⟩
          cases r with
          | error m => simp
          | ok st' =>
            dsimp only []
            rcases hpl : parseLoop H n st' ps.args with ⟨res, tr⟩
            have h3 := ih st' ps.args
            rw [hpl] at h3
            simpa using h3
        · rw [parseLoop_step_long_inline H n st arg rest s nm v hdd hsp]
          rcases hr : runProg (H.long st nm) (.inline v) ⟨rest, false⟩ with ⟨r, ps⟩
          cases r with
          | error m => simp
          | ok st' =>
            dsimp only []
            cases ht : ps.taken
            · simp
            · rcases hpl : parseLoop H n st' ps.args with ⟨res, tr⟩
              have h3 := ih st' ps.args
              rw [hpl] at h3
              simpa using h3

/-- C9: the empty token sequence fails with `EmptyInput` before any
handler call (the trace is empty), and no non-empty sequence ever
produces the `EmptyInput` error. -/
theorem C9_empty_input {σ : Type} (H : Handler σ) :
    parse H [] = (.error Err.emptyInput, []) ∧
    ∀ args : List String, args ≠ [] → (parse H args).1 ≠ .error Err.emptyInput := by
  refine ⟨rfl, ?_⟩
  intro args hne
  rcases args with _ | ⟨a, rest⟩
  · exact absurd rfl hne
  · have hp : parse H (a :: rest) = parseLoop H (rest.length + 1) H.init (a :: rest) := rfl
    rw [hp]
    exact parseLoop_no_emptyInput H (rest.length + 1) H.init (a :: rest)

/-- Witness for `C9_empty_input`. -/
theorem C9_empty_input_witness :
    (parse recPos ["a"]).1 ≠ .error Err.emptyInput :=
  (C9_empty_input recPos).2 ["a"] (by decide)

/-! ### C10 — failing external suppliers do not move the stream -/

/-- C10: when the external-token supplier fails (stream exhausted or
next token flag-like), the stream state is unchanged by that
invocation; concretely, with a probe handler that swallows the
supplier's error, the rejected token "-b" is still present and is
classified normally on the next iteration — the supplier failure alone
does not abort the parse. -/
theorem C10_supplier_failure_keeps_stream :
    (∀ (c : Option Char) (q : PState) (e : Err),
      ((SupplierKind.nextTok c).run q).1 = .error e →
      ((SupplierKind.nextTok c).run q).2 = q) ∧
    parse recAll ["-a", "-b"]
      = (Except.ok [Except.error (Err.expectedValueGotFlag "-b"),
          Except.error (Err.missingValueFor 'b')],
         [Event.callShort 'a' true (SupplierKind.nextTok (some 'a')),
          Event.callShort 'b' true (SupplierKind.nextTok (some 'b'))]) := by
  constructor
  · intro c q e h
    rcases q with ⟨qargs, qtaken⟩
    rcases qargs with _ | ⟨f, fs⟩
    · rfl
    · by_cases hf : startsDash f = true
      · unfold SupplierKind.run
        dsimp only []
        rw [hf]
        rfl
      · exfalso
        have hf2 : startsDash f = false := by simpa using hf
        rw [nextTok_run_cons_false c f fs qtaken hf2] at h
        simp at h
  · decide

/-- Witness for `C10_supplier_failure_keeps_stream`. -/
theorem C10_supplier_failure_keeps_stream_witness :
    ((SupplierKind.nextTok (some 'a')).run ⟨["-b"], false⟩).2 = ⟨["-b"], false⟩ :=
  C10_supplier_failure_keeps_stream.1 (some 'a') ⟨["-b"], false⟩
    (Err.expectedValueGotFlag "-b") (by decide)
